import Mathlib

/-!
Verification of the `now dev` local development server
(`src/commands/dev/dev-server.ts`, old variant, and
`src/commands/dev/lib/dev-server.ts`, lib variant).

The TypeScript source is shallowly embedded: JavaScript objects used as
string-keyed maps become association lists in insertion order, fallible
code returns `Except`, byte buffers become `List Nat` with every element
below 256, and external collaborators (the regex engine, the glob
expansion, the builder plugins) are parameters of the embedded functions.
-/

namespace NowDev

/-- Kind tag of a builder output (the `type` field of `BuilderOutput` in
`lib/types.ts`): a static file reference, a lambda package, or anything
else. -/
inductive AssetKind where
  | fileFsRef : AssetKind
  | lambda : AssetKind
  | other : AssetKind
deriving DecidableEq, Repr

/-- A builder output (`BuilderOutput` in the source): its kind, the
filesystem path carried by a `FileFsRef`, and whether a lambda asset has
an invocable `fn` handle. -/
structure BuilderOutput where
  type : AssetKind
  fsPath : String
  hasFn : Bool
deriving DecidableEq, Repr

/-- `BuilderOutputs` in the source: a JavaScript object mapping output
paths to builder outputs, embedded as an association list in insertion
order with unique keys. -/
abbrev ArtifactMap := List (String × BuilderOutput)

/-- Models `s.replace(/^\//, '')`: drop one leading slash if present. -/
def stripLeadingSlash (s : String) : String :=
  match s.data with
  | '/' :: rest => String.mk rest
  | _ => s

/-- Models `s.replace(/\/$/, '')`: drop one trailing slash if present. -/
def stripTrailingSlash (s : String) : String :=
  match s.data.reverse with
  | '/' :: rest => String.mk rest.reverse
  | _ => s

/-- A regex word character (`\w`): ASCII letter, digit or underscore. -/
def isWordChar (c : Char) : Bool :=
  (('a' ≤ c && c ≤ 'z') || ('A' ≤ c && c ≤ 'Z') || ('0' ≤ c && c ≤ '9') || c = '_')

/-- Does a character list match `index(\.\w+)?` exactly (consuming all of
it)? -/
def matchesIndexCore (l : List Char) : Bool :=
  match l with
  | 'i' :: 'n' :: 'd' :: 'e' :: 'x' :: rest =>
    match rest with
    | [] => true
    | '.' :: ws => !ws.isEmpty && ws.all isWordChar
    | _ => false
  | _ => false

/-- Does a character list match `\/?index(\.\w+)?` exactly? -/
def matchesIndexSuffix (l : List Char) : Bool :=
  match l with
  | '/' :: rest => matchesIndexCore rest || matchesIndexCore l
  | _ => matchesIndexCore l

/-- Scan for the leftmost position from which the remaining characters
match `\/?index(\.\w+)?$`; return the characters before it. `none` when
no suffix matches. -/
def stripIndexAux : List Char → Option (List Char)
  | [] => none
  | c :: rest =>
    if matchesIndexSuffix (c :: rest) then some []
    else (stripIndexAux rest).map (fun p => c :: p)

/-- Models `name.replace(/\/?index(\.\w+)?$/, '')`: remove the longest
(leftmost-starting) suffix matching the pattern, if any. -/
def replaceIndexSuffix (s : String) : String :=
  match stripIndexAux s.data with
  | some p => String.mk p
  | none => s

/-- Models `resolveDest` of `lib/dev-server.ts`: strip the leading slash
from `dest`; return the exact-key entry when present; otherwise return
the first entry whose key, after `replace(/\/?index(\.\w+)?$/, '')`,
equals the asset key with a trailing slash removed. -/
def resolveDest (assets : ArtifactMap) (dest : String) : Option BuilderOutput :=
  let assetKey := stripLeadingSlash dest
  match assets.lookup assetKey with
  | some a => some a
  | none =>
    match assets.find? (fun kv => replaceIndexSuffix kv.1 == stripTrailingSlash assetKey) with
    | some kv => some kv.2
    | none => none

/-- Models `matchHandler` of the old `dev-server.ts`: probe the asset map
at `url`, `url + "index.js"`, `url + "/index.js"`, `url + "/index.html"`
in that order. -/
def matchHandler (assets : ArtifactMap) (url : String) : Option BuilderOutput :=
  (assets.lookup url).orElse fun _ =>
    ((assets.lookup (url ++ "index.js")).orElse fun _ =>
      ((assets.lookup (url ++ "/index.js")).orElse fun _ =>
        assets.lookup (url ++ "/index.html")))

/-- A build rule (`BuildConfig` in the source): a source glob, a builder
plugin identifier, and an opaque optional config. -/
structure BuildConfig where
  src : String
  use : String
  config : Option String
deriving DecidableEq, Repr

/-- Models `installBuilders` of the old `dev-server.ts`: the sequence of
plugin identifiers passed to `builderCache.install`, namely the rules'
`use` fields with `@now/static` filtered out and `@now/build-utils`
appended. -/
def installBuilders (buildsConfig : List BuildConfig) : List String :=
  ((buildsConfig.map BuildConfig.use).filter (fun pkg => pkg ≠ "@now/static")) ++ ["@now/build-utils"]

/-- A route rule (`RouteConfig` in `lib/types.ts`): a regex source
pattern with optional destination template, method list, headers and
status. -/
structure RouteRule where
  src : String
  dest : Option String
  methods : Option (List String)
  headers : List (String × String)
  status : Option Nat
deriving DecidableEq, Repr

/-- The result of routing (destructured from `devRouter` in
`lib/dev-server.ts`): the destination path or URL, the optional status,
the accumulated headers, and the index of the matched route, if any. -/
structure RouteResult where
  dest : String
  status : Option Nat
  headers : List (String × String)
  matchedRoute : Option Nat
deriving DecidableEq, Repr

/-- Does the first list occur at the head of the second? -/
def startsWithChars : List Char → List Char → Bool
  | [], _ => true
  | _ :: _, [] => false
  | p :: ps, c :: cs => p = c && startsWithChars ps cs

/-- Modelled from the spec: `lib/is-url.ts` is not under `src/`; per the
spec a `dest` value that is a fully-qualified URL signals reverse proxy,
so a string is a URL when it starts with an http or https scheme. -/
def isURL (s : String) : Bool :=
  startsWithChars "http://".data s.data || startsWithChars "https://".data s.data

/-- Does an optional route status demand terminal redirect handling
(301, 302 or 303)? -/
def isTerminalStatus (s : Option Nat) : Bool :=
  s == some 301 || s == some 302 || s == some 303

/-- Modelled from the spec: the body of `devRouter` (`lib/dev-router.ts`
is not under `src/`). Iterate the rules in order over the current path;
a rule matches when its compiled `src` regex matches the path and its
`methods`, if present, contain the request method; on a match merge the
headers, record the status, substitute captures into `dest`, stop on a
terminal outcome (redirect status or absolute-URL dest), otherwise feed
the rewritten path to the remaining rules. The regex engine is the
parameter `matchRe` (capture list on success) and capture substitution
is the parameter `subst`. -/
def routeLoop (matchRe : String → String → Option (List String))
    (subst : String → List String → String) (method : String) :
    List RouteRule → String → List (String × String) → Option Nat → Option Nat → Nat → RouteResult
  | [], path, hdrs, st, idx, _ => ⟨path, st, hdrs, idx⟩
  | r :: rest, path, hdrs, st, idx, n =>
    let methodOk := match r.methods with
      | none => true
      | some ms => ms.contains method
    match (if methodOk then matchRe r.src path else none) with
    | none => routeLoop matchRe subst method rest path hdrs st idx (n + 1)
    | some caps =>
      let hdrs2 := hdrs ++ r.headers
      let st2 := match r.status with
        | some s => some s
        | none => st
      let path2 := match r.dest with
        | some d => subst d caps
        | none => path
      if isTerminalStatus r.status || isURL path2 then ⟨path2, st2, hdrs2, some n⟩
      else routeLoop matchRe subst method rest path2 hdrs2 st2 (some n) (n + 1)

/-- Modelled from the spec: `devRouter` entry point — strip the leading
slash from the request path, then run the rule list with no accumulated
headers, no status and no matched rule. -/
def devRouter (matchRe : String → String → Option (List String))
    (subst : String → List String → String)
    (method : String) (reqPath : String) (routes : Option (List RouteRule)) : RouteResult :=
  routeLoop matchRe subst method (routes.getD []) (stripLeadingSlash reqPath) [] none none 0

/-- The `status = 200` destructuring default of `serveProjectAsNowV2`. -/
def routedStatus (r : RouteResult) : Nat :=
  r.status.getD 200

/-- A route rule of the old `dev-server.ts` (`RouteConfig` there):
`dest` is a required string, tested for truthiness. -/
structure RouteConfigOld where
  src : String
  dest : String
  methods : Option (List String)
  headers : List (String × String)
  status : Option Nat
deriving DecidableEq, Repr

/-- Models the `routes.reduce` chain of `route` in the old
`dev-server.ts`: each rule with a truthy (non-empty) `dest` replaces the
accumulated path by `accu.replace(new RegExp('^' + src + '$'), dest)`;
a rule whose anchored regex does not match leaves the path unchanged. -/
def reduceRoutes (matchRe : String → String → Option (List String))
    (subst : String → List String → String)
    (routes : List RouteConfigOld) (reqDest : String) : String :=
  routes.foldl (fun accu r =>
    if r.dest ≠ "" then
      match matchRe ("^" ++ r.src ++ "$") accu with
      | some caps => subst r.dest caps
      | none => accu
    else accu) reqDest

/-- Models `route` of the old `dev-server.ts`: strip the leading slash
from the url, rewrite through the route list, then find the handler via
`matchHandler`. `none` stands for the `{}` fallback. -/
def route (matchRe : String → String → Option (List String))
    (subst : String → List String → String)
    (url : Option String) (assets : ArtifactMap)
    (routes : Option (List RouteConfigOld)) : Option BuilderOutput :=
  match url with
  | none => none
  | some u =>
    let reqDest := stripLeadingSlash u
    let reqDest2 := match routes with
      | some rs => reduceRoutes matchRe subst rs reqDest
      | none => reqDest
    matchHandler assets reqDest2

/-- Environment entries shared by `NowConfig.env` and build-time env. -/
abbrev EnvMap := List (String × String)

/-- The `build` sub-object of a `NowConfig`. -/
structure BuildEnvConfig where
  env : Option EnvMap
deriving DecidableEq, Repr

/-- The project configuration (`NowConfig` in `lib/types.ts`) as
consumed by the lib `dev-server.ts`. -/
structure NowConfig where
  version : Nat
  builds : Option (List BuildConfig)
  routes : Option (List RouteRule)
  env : Option EnvMap
  build : Option BuildEnvConfig
deriving DecidableEq, Repr

/-- The abstract serving action chosen by `serveProjectAsNowV2` after
routing: reverse proxy, redirect ended with no body, static project
serving, 404, static file from a `FileFsRef` artifact, lambda
invocation, the 500 for an unbuilt lambda, or the 500 default. Response
headers from the routing result are set before any of these branches;
`redirectEnd` records them together with the routed status. -/
inductive ServeAction where
  | proxyPass : String → ServeAction
  | redirectEnd : List (String × String) → Nat → ServeAction
  | staticProject : ServeAction
  | notFound : ServeAction
  | fileFromArtifact : String → ServeAction
  | invokeLambda : ServeAction
  | lambdaNotBuilt : ServeAction
  | internalError : ServeAction
deriving DecidableEq, Repr

/-- Models the dispatch order of `serveProjectAsNowV2` in
`lib/dev-server.ts` on a routing result: URL destinations are proxied
first; then statuses 301, 302, 303 end the response with no body; then
a config without `builds` serves the project statically; otherwise the
destination is resolved in the asset map and served by artifact kind. -/
def dispatch (cfg : NowConfig) (assets : ArtifactMap) (r : RouteResult) : ServeAction :=
  let status := routedStatus r
  if isURL r.dest then ServeAction.proxyPass r.dest
  else if status = 301 ∨ status = 302 ∨ status = 303 then ServeAction.redirectEnd r.headers status
  else match cfg.builds with
  | none => ServeAction.staticProject
  | some _ =>
    match resolveDest assets r.dest with
    | none => ServeAction.notFound
    | some asset =>
      match asset.type with
      | AssetKind.fileFsRef => ServeAction.fileFromArtifact asset.fsPath
      | AssetKind.lambda => if asset.hasFn then ServeAction.invokeLambda else ServeAction.lambdaNotBuilt
      | AssetKind.other => ServeAction.internalError

/-- The `DevServerStatus` enum of the source. -/
inductive DevServerStatus where
  | busy : DevServerStatus
  | idle : DevServerStatus
  | error : DevServerStatus
deriving DecidableEq, Repr

/-- The mutable fields of the `DevServer` class that the handler and the
build pipeline touch: the status enum, the status message, and the
published asset map. -/
structure ServerState where
  status : DevServerStatus
  statusMessage : String
  assets : ArtifactMap
deriving DecidableEq, Repr

/-- An incoming HTTP request as seen by the handler. -/
structure HttpRequest where
  method : String
  url : String
deriving DecidableEq, Repr

/-- The observable outcome of one `devServerHandler` call: the server
state afterwards, the response body, and how many builds the request
triggered. -/
structure HandlerOutcome where
  state : ServerState
  response : String
  buildsTriggered : Nat
deriving DecidableEq, Repr

/-- Models `devServerHandler` of `lib/dev-server.ts`. A request arriving
while the status is busy is answered at once with the busy notice and
returns before anything else runs. Otherwise the serving logic — the
parameter `serve`, returning a response body and the number of builds it
triggered, or an error message — runs; an error sets the error status
and answers 500 with the message; either way the status then resets to
idle. -/
def devServerHandler (serve : HttpRequest → Except String (String × Nat))
    (s : ServerState) (req : HttpRequest) : HandlerOutcome :=
  if s.status = DevServerStatus.busy then
    ⟨s, "[busy] " ++ s.statusMessage ++ "...", 0⟩
  else
    match serve req with
    | Except.ok (body, nb) => ⟨⟨DevServerStatus.idle, "", s.assets⟩, body, nb⟩
    | Except.error msg => ⟨⟨DevServerStatus.idle, "", s.assets⟩, msg, 0⟩

/-- Is the first character of an env value the secret sigil `@`
(`val[0] === '@'` in the source, false for the empty string)? -/
def hasSecretValue (v : String) : Bool :=
  v.data.head? == some '@'

/-- The env values inspected by `validateNowConfig`: the values of
`config.env || {}` followed by the values of
`(config.build || {}).env || {}`. -/
def envValues (c : NowConfig) : List String :=
  (c.env.getD []).map Prod.snd ++
    ((match c.build with
      | some b => b.env.getD []
      | none => []).map Prod.snd)

/-- Models `validateNowConfig` of `lib/dev-server.ts`: reject a version
other than 2, then reject any env or build-time env value beginning with
`@`. -/
def validateNowConfig (c : NowConfig) : Except String Unit :=
  if c.version ≠ 2 then
    Except.error "Only version 2 is supported by now dev"
  else if (envValues c).any hasSecretValue then
    Except.error "Secret env vars are not yet supported by now dev"
  else
    Except.ok ()

/-- Models `getNowJson` of `lib/dev-server.ts` given the outcome of
reading and parsing the config file (errors identified by a string, the
missing-file error being `ENOENT`): a read error other than `ENOENT`
propagates, a missing file yields no config, and a parsed config is
validated before being returned. -/
def getNowJson (readResult : Except String NowConfig) : Except String (Option NowConfig) :=
  match readResult with
  | Except.error code => if code = "ENOENT" then Except.ok none else Except.error code
  | Except.ok cfg =>
    match validateNowConfig cfg with
    | Except.error m => Except.error m
    | Except.ok _ => Except.ok (some cfg)

/-- The error thrown by `buildLambdas` of the old `dev-server.ts`: a
`NowError` with code `NOW_BUILDER_FAILURE` whose message names the
failing rule's `src` and `use`, with the underlying message as meta. -/
structure NowBuildError where
  code : String
  message : String
  meta2 : String
deriving DecidableEq, Repr

/-- The `NOW_BUILDER_FAILURE` error for one failing build rule. -/
def builderFailure (b : BuildConfig) (underlying : String) : NowBuildError :=
  ⟨"NOW_BUILDER_FAILURE", "Failed building " ++ b.src ++ " with " ++ b.use, underlying⟩

/-- JavaScript object spread `{...a, ...b}`: keys of `a` in place with
values overridden by `b` where both have the key, then the new keys of
`b`. -/
def mergeAssets (a b : ArtifactMap) : ArtifactMap :=
  a.map (fun kv => (kv.1, (b.lookup kv.1).getD kv.2)) ++
    b.filter (fun kv => (a.lookup kv.1).isNone)

/-- The inner entry loop of `buildLambdas`: invoke the builder on each
entry in order, spreading each output over the accumulated results; the
first failure aborts with its message. -/
def buildEntriesLoop (bf : String → Except String ArtifactMap) :
    List String → ArtifactMap → Except String ArtifactMap
  | [], acc => Except.ok acc
  | e :: rest, acc =>
    match bf e with
    | Except.error m => Except.error m
    | Except.ok out => buildEntriesLoop bf rest (mergeAssets acc out)

/-- Models `buildLambdas` of the old `dev-server.ts`: for each build
rule, expand its glob (the parameter `entriesOf`) and run its builder
(the parameter `builderOf`, also covering the glob and cache lookups of
the per-rule try block) over every entry, merging outputs into one map;
any failure inside a rule's try block aborts the whole run with a
`NOW_BUILDER_FAILURE` error naming that rule. -/
def buildLambdas (entriesOf : BuildConfig → List String)
    (builderOf : BuildConfig → String → Except String ArtifactMap) :
    List BuildConfig → ArtifactMap → Except NowBuildError ArtifactMap
  | [], acc => Except.ok acc
  | b :: rest, acc =>
    match buildEntriesLoop (builderOf b) (entriesOf b) acc with
    | Except.error m => Except.error (builderFailure b m)
    | Except.ok acc2 => buildLambdas entriesOf builderOf rest acc2

/-- A full orchestration run starts from the empty result map (`let
results = {}`). -/
def buildLambdasRun (entriesOf : BuildConfig → List String)
    (builderOf : BuildConfig → String → Except String ArtifactMap)
    (rules : List BuildConfig) : Except NowBuildError ArtifactMap :=
  buildLambdas entriesOf builderOf rules []

/-- Models how `this.assets` is published: the assignment
`this.assets = await buildUserProject(...)` runs only when the build
succeeds, so a failed run leaves the previously published map in
place. -/
def applyBuildResult (s : ServerState) (r : Except NowBuildError ArtifactMap) : ServerState :=
  match r with
  | Except.ok m => ⟨s.status, s.statusMessage, m⟩
  | Except.error _ => s

/-- The standard base64 alphabet used by Node's `Buffer` base64
codec. -/
def b64Alphabet : List Char :=
  "ABCDEFGHIJKLMNOPQRSTUVWXYZabcdefghijklmnopqrstuvwxyz0123456789+/".data

/-- The character for a sextet value. -/
def b64Char (n : Nat) : Char :=
  b64Alphabet.getD n 'A'

/-- The sextet value of an alphabet character (the list index). -/
def b64Index (c : Char) : Nat :=
  b64Alphabet.indexOf c

/-- Models `Buffer.prototype.toString('base64')` on a byte list: encode
three bytes into four alphabet characters, padding a trailing group of
one or two bytes with `=`. -/
def b64EncodeList : List Nat → List Char
  | [] => []
  | [b1] => [b64Char (b1 / 4), b64Char (b1 % 4 * 16), '=', '=']
  | [b1, b2] => [b64Char (b1 / 4), b64Char (b1 % 4 * 16 + b2 / 16), b64Char (b2 % 16 * 4), '=']
  | b1 :: b2 :: b3 :: rest =>
    b64Char (b1 / 4) :: b64Char (b1 % 4 * 16 + b2 / 16) ::
      b64Char (b2 % 16 * 4 + b3 / 64) :: b64Char (b3 % 64) :: b64EncodeList rest

/-- Regroup decoded sextets into bytes: four sextets yield three bytes,
a trailing group of three or two sextets (from a padded final group)
yields two bytes or one. -/
def b64SextetsToBytes : List Nat → List Nat
  | s1 :: s2 :: s3 :: s4 :: rest =>
    (s1 * 4 + s2 / 16) :: (s2 % 16 * 16 + s3 / 4) :: (s3 % 4 * 64 + s4) :: b64SextetsToBytes rest
  | [s1, s2, s3] => [s1 * 4 + s2 / 16, s2 % 16 * 16 + s3 / 4]
  | [s1, s2] => [s1 * 4 + s2 / 16]
  | _ => []

/-- Models `Buffer.from(s, 'base64')` on the character list of a valid
base64 string: drop the padding and regroup the sextets into bytes. -/
def b64DecodeList (cs : List Char) : List Nat :=
  b64SextetsToBytes ((cs.filter (fun c => c ≠ '=')).map b64Index)

/-- The `InvokePayload` structure of `lib/types.ts`. -/
structure InvokePayload where
  method : String
  path : String
  headers : List (String × String)
  encoding : String
  body : String
deriving DecidableEq, Repr

/-- The `InvokeResult` structure of `lib/types.ts`, with the body absent
when the result carries none. -/
structure InvokeResult where
  statusCode : Nat
  headers : List (String × String)
  encoding : Option String
  body : Option String
deriving DecidableEq, Repr

/-- Models the payload synthesis of `serveProjectAsNowV2`: the raw
request body bytes are base64-encoded and tagged `encoding: "base64"`
whatever the request's content type or headers say. -/
def mkInvokePayload (method path : String) (headers : List (String × String))
    (bodyBytes : List Nat) : InvokePayload :=
  ⟨method, path, headers, "base64", String.mk (b64EncodeList bodyBytes)⟩

/-- Models the response-body handling of `serveProjectAsNowV2`: a result
whose declared encoding is `base64` (with a string body) is decoded from
base64 before being written; any other body is written as its raw
character codes. -/
def resultResponseBytes (r : InvokeResult) : Option (List Nat) :=
  if r.encoding = some "base64" ∧ r.body.isSome then
    r.body.map (fun s => b64DecodeList s.data)
  else
    r.body.map (fun s => s.data.map Char.toNat)

/-- A sample lambda artifact for concrete instances. -/
def sampleLambda : BuilderOutput := ⟨AssetKind.lambda, "", true⟩

/-- A sample static-file artifact for concrete instances. -/
def sampleStatic : BuilderOutput := ⟨AssetKind.fileFsRef, "/tmp/public/page.html", false⟩

/-- Two build rules referencing the same builder plugin. -/
def rulesSamePlugin : List BuildConfig :=
  [⟨"a.js", "@now/node", none⟩, ⟨"b.js", "@now/node", none⟩]

/-- A minimal valid version-2 config with a `builds` list present. -/
def cfgV2 : NowConfig := ⟨2, some [], none, none, none⟩

/-- Headers accumulated by a redirecting route rule. -/
def redirectHeaders : List (String × String) := [("Location", "https://example.com")]

/-- A routing result whose destination is an absolute URL and whose
status is 302. -/
def urlRouteResult : RouteResult := ⟨"https://example.com", some 302, redirectHeaders, some 0⟩

/-- A routing result with a local destination and status 302. -/
def localRedirectResult : RouteResult := ⟨"/new", some 302, redirectHeaders, some 0⟩

/-- A build rule whose builder invocation will fail in concrete runs. -/
def badRule : BuildConfig := ⟨"*.js", "@now/node", none⟩

/-- A busy server state during the lambda build phase. -/
def busyState : ServerState := ⟨DevServerStatus.busy, "building lambdas", []⟩

/-- An idle server state with one published artifact. -/
def idleState : ServerState := ⟨DevServerStatus.idle, "", [("a.js", sampleLambda)]⟩

/-! ## Theorems -/

/-- Claim C9: index fallback also matches keys without a path separator.
In the lib variant, destination `/foo` resolves to the artifact keyed
`fooindex.js` because the stripping regex makes the slash before `index`
optional; in the old variant, `matchHandler` probes
`assets[url + "index.js"]` with no separator. Resolution is therefore
not restricted to true directory indexes. -/
theorem resolveDest_matches_non_directory_index :
    resolveDest [("fooindex.js", sampleLambda)] "/foo" = some sampleLambda
    ∧ matchHandler [("fooindex.js", sampleLambda)] "foo" = some sampleLambda
    ∧ replaceIndexSuffix "fooindex.js" = "foo" := by
  decide

/-- Claim C10: `installBuilders` always appends `@now/build-utils` to
the install list (even for an empty builds list) and filters
`@now/static` out, so the installed identifiers are exactly the rules'
non-static plugins plus `@now/build-utils`. -/
theorem installBuilders_adjusts_list (rules : List BuildConfig) :
    installBuilders [] = ["@now/build-utils"]
    ∧ "@now/build-utils" ∈ installBuilders rules
    ∧ "@now/static" ∉ installBuilders rules
    ∧ ∀ p : String, p ∈ installBuilders rules ↔
        (p = "@now/build-utils" ∨ (p ≠ "@now/static" ∧ ∃ r ∈ rules, r.use = p)) := by
  refine ⟨rfl, ?_, ?_, ?_⟩
  · simp [installBuilders]
  · simp [installBuilders, List.mem_filter]
  · intro p
    simp only [installBuilders, List.mem_append, List.mem_filter, List.mem_map,
      List.mem_singleton, decide_eq_true_eq]
    constructor
    · rintro (⟨⟨r, hr, rfl⟩, hne⟩ | rfl)
      · exact Or.inr ⟨hne, r, hr, rfl⟩
      · exact Or.inl rfl
    · rintro (rfl | ⟨hne, r, hr, rfl⟩)
      · exact Or.inr rfl
      · exact Or.inl ⟨⟨r, hr, rfl⟩, hne⟩

/-- Claim C10 witness: a rule using `@now/static` contributes nothing,
while `@now/build-utils` is still installed. -/
theorem installBuilders_adjusts_list_witness :
    "@now/static" ∉ installBuilders [⟨"x.html", "@now/static", none⟩]
    ∧ "@now/build-utils" ∈ installBuilders [⟨"x.html", "@now/static", none⟩] :=
  ⟨(installBuilders_adjusts_list [⟨"x.html", "@now/static", none⟩]).2.2.1,
    (installBuilders_adjusts_list [⟨"x.html", "@now/static", none⟩]).2.1⟩

/-- Claim C3 counterexample: two build rules using the same plugin
identifier make `installBuilders` pass that identifier to
`builderCache.install` twice, not once — the list is not
deduplicated. -/
theorem installBuilders_no_dedup_counterexample :
    (installBuilders rulesSamePlugin).count "@now/node" = 2
    ∧ (installBuilders rulesSamePlugin).count "@now/node" ≠ 1 := by
  decide

/-- Claim C3 amended: the install list is not deduplicated — every
plugin identifier other than the filtered `@now/static` and the appended
`@now/build-utils` is passed to the installer exactly once per build
rule referencing it. -/
theorem installBuilders_count_per_rule (rules : List BuildConfig) (p : String)
    (h1 : p ≠ "@now/static") (h2 : p ≠ "@now/build-utils") :
    (installBuilders rules).count p = (rules.map BuildConfig.use).count p := by
  have hz : List.count p ["@now/build-utils"] = 0 := by
    simp [List.count_cons, h2]
  unfold installBuilders
  rw [List.count_append, List.count_filter (by simp [h1]), hz, Nat.add_zero]

/-- Claim C3 amended witness: with two rules using `@now/node`, the
installer receives `@now/node` once per rule. -/
theorem installBuilders_count_per_rule_witness :
    (installBuilders rulesSamePlugin).count "@now/node"
      = (rulesSamePlugin.map BuildConfig.use).count "@now/node" :=
  installBuilders_count_per_rule rulesSamePlugin "@now/node" (by decide) (by decide)

/-- Claim C4: a request arriving while the server state is busy is
answered immediately with the busy notice carrying the current busy
reason; the state is left exactly as it was and no build is triggered,
whatever the serving logic would do. -/
theorem busy_request_gated (serve : HttpRequest → Except String (String × Nat))
    (s : ServerState) (req : HttpRequest) (h : s.status = DevServerStatus.busy) :
    devServerHandler serve s req = ⟨s, "[busy] " ++ s.statusMessage ++ "...", 0⟩ := by
  simp [devServerHandler, h]

/-- Claim C4 witness: a concrete request during the lambda build phase
receives the busy notice, the state is unchanged, and the build count is
zero even though the serving logic would have triggered a build. -/
theorem busy_request_gated_witness :
    devServerHandler (fun _ => Except.ok ("served", 1)) busyState ⟨"GET", "/"⟩
      = ⟨busyState, "[busy] building lambdas...", 0⟩ :=
  busy_request_gated (fun _ => Except.ok ("served", 1)) busyState ⟨"GET", "/"⟩ rfl

/-- Claim C2: `resolveDest` strips the leading slash and returns the
exact-key entry whenever one exists, falling back to the index lookup
only otherwise; concretely, `/api/` resolves to the artifact keyed
`api/index.js` when no exact key `api/` exists, and `/api/index.js`
resolves to itself even when an index-fallback candidate is also
present. -/
theorem resolveDest_precedence (assets : ArtifactMap) (dest : String) (a : BuilderOutput)
    (h : assets.lookup (stripLeadingSlash dest) = some a) :
    resolveDest assets dest = some a
    ∧ resolveDest [("api/index.js", sampleLambda)] "/api/" = some sampleLambda
    ∧ resolveDest [("api/index.js/index.html", sampleStatic), ("api/index.js", sampleLambda)]
        "/api/index.js" = some sampleLambda := by
  refine ⟨?_, by decide, by decide⟩
  simp [resolveDest, h]

/-- Claim C2 witness: the exact key `api/index.js` resolves to its own
entry. -/
theorem resolveDest_precedence_witness :
    resolveDest [("api/index.js", sampleLambda)] "/api/index.js" = some sampleLambda :=
  (resolveDest_precedence [("api/index.js", sampleLambda)] "/api/index.js" sampleLambda
    (by decide)).1

/-- Claim C7: `validateNowConfig` rejects any config whose version is
not 2 and any config with an env or build-time env value beginning with
`@`, making `getNowJson` — and hence server startup — fail; a version-2
config without secret references validates, and `getNowJson` returns
it. -/
theorem validateNowConfig_spec (c : NowConfig) :
    (c.version ≠ 2 →
      ∃ m, validateNowConfig c = Except.error m ∧ getNowJson (Except.ok c) = Except.error m)
    ∧ ((envValues c).any hasSecretValue = true →
      ∃ m, validateNowConfig c = Except.error m ∧ getNowJson (Except.ok c) = Except.error m)
    ∧ (c.version = 2 → (envValues c).any hasSecretValue = false →
      validateNowConfig c = Except.ok () ∧ getNowJson (Except.ok c) = Except.ok (some c)) := by
  refine ⟨?_, ?_, ?_⟩
  · intro hv
    refine ⟨"Only version 2 is supported by now dev", ?_, ?_⟩ <;>
      simp [validateNowConfig, getNowJson, hv]
  · intro hs
    by_cases hv : c.version = 2
    · refine ⟨"Secret env vars are not yet supported by now dev", ?_, ?_⟩ <;>
        simp [validateNowConfig, getNowJson, hv, hs]
    · refine ⟨"Only version 2 is supported by now dev", ?_, ?_⟩ <;>
        simp [validateNowConfig, getNowJson, hv]
  · intro hv hs
    constructor <;> simp [validateNowConfig, getNowJson, hv, hs]

/-- Claim C7 witness: a version-3 config is rejected, a config whose env
holds the secret reference `@my-secret` is rejected, and a clean
version-2 config passes validation and is returned by `getNowJson`. -/
theorem validateNowConfig_spec_witness :
    (∃ m, validateNowConfig ⟨3, none, none, none, none⟩ = Except.error m
      ∧ getNowJson (Except.ok ⟨3, none, none, none, none⟩) = Except.error m)
    ∧ (∃ m, validateNowConfig ⟨2, none, none, some [("TOKEN", "@my-secret")], none⟩
        = Except.error m)
    ∧ validateNowConfig ⟨2, some [], none, some [("TOKEN", "plain")], none⟩ = Except.ok () :=
  ⟨(validateNowConfig_spec ⟨3, none, none, none, none⟩).1 (by decide),
    (fun ⟨m, hm, _⟩ => ⟨m, hm⟩)
      ((validateNowConfig_spec ⟨2, none, none, some [("TOKEN", "@my-secret")], none⟩).2.1
        (by decide)),
    ((validateNowConfig_spec ⟨2, some [], none, some [("TOKEN", "plain")], none⟩).2.2
      rfl (by decide)).1⟩

/-- Claim C8 counterexample: a routing result carrying status 302 whose
destination is an absolute URL is reverse-proxied — the URL check runs
first — so the response is not ended bodyless with the accumulated
headers. -/
theorem redirect_counterexample :
    dispatch cfgV2 [] urlRouteResult = ServeAction.proxyPass "https://example.com"
    ∧ dispatch cfgV2 [] urlRouteResult ≠ ServeAction.redirectEnd redirectHeaders 302 := by
  decide

/-- Claim C8 amended: for every routing result whose destination is not
an absolute URL and whose status is 301, 302 or 303, the response is
ended with no body carrying the accumulated headers, and no artifact
lookup or invocation is performed — the action is the same whatever the
asset map holds. -/
theorem redirect_ends_response (cfg : NowConfig) (assets : ArtifactMap) (r : RouteResult)
    (h1 : isURL r.dest = false)
    (h2 : routedStatus r = 301 ∨ routedStatus r = 302 ∨ routedStatus r = 303) :
    dispatch cfg assets r = ServeAction.redirectEnd r.headers (routedStatus r)
    ∧ ∀ assets2 : ArtifactMap,
        dispatch cfg assets2 r = ServeAction.redirectEnd r.headers (routedStatus r) := by
  refine ⟨?_, fun assets2 => ?_⟩ <;> simp [dispatch, h1, h2]

/-- Claim C8 amended witness: a local destination with status 302 is
answered by an empty-bodied response carrying the accumulated
`Location` header, independently of the published assets. -/
theorem redirect_ends_response_witness :
    dispatch cfgV2 [("new", sampleLambda)] localRedirectResult
      = ServeAction.redirectEnd redirectHeaders 302 :=
  (redirect_ends_response cfgV2 [("new", sampleLambda)] localRedirectResult
    (by decide) (by decide)).1

theorem routeLoop_no_match (matchRe : String → String → Option (List String))
    (subst : String → List String → String) (method : String)
    (rules : List RouteRule) (path : String) (hdrs : List (String × String))
    (st idx : Option Nat) (n : Nat)
    (h : ∀ r ∈ rules, matchRe r.src path = none) :
    routeLoop matchRe subst method rules path hdrs st idx n = ⟨path, st, hdrs, idx⟩ := by
  induction rules generalizing n with
  | nil => rfl
  | cons r rest ih =>
    have hr : matchRe r.src path = none := h r (by simp)
    have hcond : (if (match r.methods with
        | none => true
        | some ms => ms.contains method) then matchRe r.src path else none) = none := by
      split <;> simp [hr]
    simp only [routeLoop, hcond]
    exact ih (n + 1) (fun r2 hr2 => h r2 (List.mem_cons_of_mem r hr2))

theorem reduceRoutes_no_match (matchRe : String → String → Option (List String))
    (subst : String → List String → String)
    (routes : List RouteConfigOld) (p : String)
    (h : ∀ r ∈ routes, matchRe ("^" ++ r.src ++ "$") p = none) :
    reduceRoutes matchRe subst routes p = p := by
  induction routes with
  | nil => rfl
  | cons r rest ih =>
    have hr : matchRe ("^" ++ r.src ++ "$") p = none := h r (by simp)
    have hstep : (if r.dest ≠ "" then
        match matchRe ("^" ++ r.src ++ "$") p with
        | some caps => subst r.dest caps
        | none => p
      else p) = p := by
      split <;> simp [hr]
    calc reduceRoutes matchRe subst (r :: rest) p
        = reduceRoutes matchRe subst rest (if r.dest ≠ "" then
            match matchRe ("^" ++ r.src ++ "$") p with
            | some caps => subst r.dest caps
            | none => p
          else p) := rfl
      _ = reduceRoutes matchRe subst rest p := by rw [hstep]
      _ = p := ih (fun r2 hr2 => h r2 (List.mem_cons_of_mem r hr2))

/-- Claim C1: a request path matching no rule's src pattern passes
through routing unchanged (after the leading-slash normalization both
variants perform): the spec-modelled `devRouter` returns the path with
no status, no headers and no matched rule — so the destructuring default
yields status 200 — and the old variant's route-reduce chain leaves the
path untouched. -/
theorem router_passthrough (matchRe : String → String → Option (List String))
    (subst : String → List String → String) (method reqPath : String)
    (rules : List RouteRule) (oldRoutes : List RouteConfigOld)
    (h1 : ∀ r ∈ rules, matchRe r.src (stripLeadingSlash reqPath) = none)
    (h2 : ∀ r ∈ oldRoutes, matchRe ("^" ++ r.src ++ "$") (stripLeadingSlash reqPath) = none) :
    devRouter matchRe subst method reqPath (some rules)
        = ⟨stripLeadingSlash reqPath, none, [], none⟩
    ∧ routedStatus (devRouter matchRe subst method reqPath (some rules)) = 200
    ∧ reduceRoutes matchRe subst oldRoutes (stripLeadingSlash reqPath)
        = stripLeadingSlash reqPath := by
  have hd : devRouter matchRe subst method reqPath (some rules)
      = ⟨stripLeadingSlash reqPath, none, [], none⟩ :=
    routeLoop_no_match matchRe subst method rules (stripLeadingSlash reqPath) [] none none 0 h1
  exact ⟨hd, by rw [hd]; rfl, reduceRoutes_no_match matchRe subst oldRoutes
    (stripLeadingSlash reqPath) h2⟩

/-- Claim C1 witness: with a regex engine matching nothing, the request
path `/abc` passes through a one-rule route list unchanged with status
200 and no headers, in both variants. -/
theorem router_passthrough_witness :
    devRouter (fun _ _ => none) (fun d _ => d) "GET" "/abc"
        (some [⟨"^x$", some "y", none, [], none⟩]) = ⟨"abc", none, [], none⟩
    ∧ routedStatus (devRouter (fun _ _ => none) (fun d _ => d) "GET" "/abc"
        (some [⟨"^x$", some "y", none, [], none⟩])) = 200
    ∧ reduceRoutes (fun _ _ => none) (fun d _ => d) [⟨"x", "y", none, [], none⟩] "abc"
        = "abc" :=
  router_passthrough (fun _ _ => none) (fun d _ => d) "GET" "/abc"
    [⟨"^x$", some "y", none, [], none⟩] [⟨"x", "y", none, [], none⟩]
    (fun _ _ => rfl) (fun _ _ => rfl)

theorem buildEntriesLoop_ok (bf : String → Except String ArtifactMap)
    (entries : List String) (acc m : ArtifactMap)
    (h : buildEntriesLoop bf entries acc = Except.ok m) :
    ∀ e ∈ entries, ∃ out, bf e = Except.ok out := by
  induction entries generalizing acc with
  | nil => intro e he; cases he
  | cons e2 rest ih =>
    intro e he
    cases hbf : bf e2 with
    | error m2 => rw [buildEntriesLoop, hbf] at h; cases h
    | ok out =>
      rw [buildEntriesLoop, hbf] at h
      rcases List.mem_cons.mp he with rfl | htail
      · exact ⟨out, hbf⟩
      · exact ih (mergeAssets acc out) h e htail

theorem buildEntriesLoop_error (bf : String → Except String ArtifactMap)
    (entries : List String) (acc : ArtifactMap) (m : String)
    (h : buildEntriesLoop bf entries acc = Except.error m) :
    ∃ e ∈ entries, bf e = Except.error m := by
  induction entries generalizing acc with
  | nil => cases h
  | cons e2 rest ih =>
    cases hbf : bf e2 with
    | error m2 =>
      rw [buildEntriesLoop, hbf] at h
      cases h
      exact ⟨e2, by simp, hbf⟩
    | ok out =>
      rw [buildEntriesLoop, hbf] at h
      obtain ⟨e, he, hfe⟩ := ih (mergeAssets acc out) h
      exact ⟨e, List.mem_cons_of_mem e2 he, hfe⟩

theorem buildLambdas_ok (entriesOf : BuildConfig → List String)
    (builderOf : BuildConfig → String → Except String ArtifactMap)
    (rules : List BuildConfig) (acc m : ArtifactMap)
    (h : buildLambdas entriesOf builderOf rules acc = Except.ok m) :
    ∀ r ∈ rules, ∀ e ∈ entriesOf r, ∃ out, builderOf r e = Except.ok out := by
  induction rules generalizing acc with
  | nil => intro r hr; cases hr
  | cons b rest ih =>
    intro r hr
    cases hb : buildEntriesLoop (builderOf b) (entriesOf b) acc with
    | error m2 => rw [buildLambdas, hb] at h; cases h
    | ok acc2 =>
      rw [buildLambdas, hb] at h
      rcases List.mem_cons.mp hr with rfl | htail
      · exact buildEntriesLoop_ok (builderOf r) (entriesOf r) acc acc2 hb
      · exact ih acc2 h r htail

theorem buildLambdas_error (entriesOf : BuildConfig → List String)
    (builderOf : BuildConfig → String → Except String ArtifactMap)
    (rules : List BuildConfig) (acc : ArtifactMap) (err : NowBuildError)
    (h : buildLambdas entriesOf builderOf rules acc = Except.error err) :
    ∃ r ∈ rules, ∃ m, err = builderFailure r m
      ∧ ∃ e ∈ entriesOf r, builderOf r e = Except.error m := by
  induction rules generalizing acc with
  | nil => cases h
  | cons b rest ih =>
    cases hb : buildEntriesLoop (builderOf b) (entriesOf b) acc with
    | error m =>
      rw [buildLambdas, hb] at h
      cases h
      obtain ⟨e, he, hfe⟩ := buildEntriesLoop_error (builderOf b) (entriesOf b) acc m hb
      exact ⟨b, by simp, m, rfl, e, he, hfe⟩
    | ok acc2 =>
      rw [buildLambdas, hb] at h
      obtain ⟨r, hr, m, hm, e, he, hfe⟩ := ih acc2 h
      exact ⟨r, List.mem_cons_of_mem b hr, m, hm, e, he, hfe⟩

/-- Claim C5: if any build rule's builder invocation fails, the whole
orchestration run aborts with a `NOW_BUILDER_FAILURE` error naming a
rule whose builder really failed on one of its entries — no merged map
is returned — and a failed build result leaves the previously published
asset map of the server untouched, so it is still served until a fully
successful rebuild replaces it. -/
theorem build_failure_atomic (entriesOf : BuildConfig → List String)
    (builderOf : BuildConfig → String → Except String ArtifactMap)
    (rules : List BuildConfig) (r : BuildConfig) (hr : r ∈ rules)
    (e : String) (he : e ∈ entriesOf r) (msg : String)
    (hfail : builderOf r e = Except.error msg) (s : ServerState) :
    (∃ r2 ∈ rules, ∃ m, buildLambdasRun entriesOf builderOf rules
        = Except.error (builderFailure r2 m)
      ∧ ∃ e2 ∈ entriesOf r2, builderOf r2 e2 = Except.error m)
    ∧ (∀ err : NowBuildError, applyBuildResult s (Except.error err) = s) := by
  constructor
  · cases hres : buildLambdasRun entriesOf builderOf rules with
    | ok m =>
      obtain ⟨out, hout⟩ := buildLambdas_ok entriesOf builderOf rules [] m hres r hr e he
      rw [hfail] at hout
      cases hout
    | error err =>
      obtain ⟨r2, hr2, m, hm, e2, he2, hfe2⟩ :=
        buildLambdas_error entriesOf builderOf rules [] err hres
      exact ⟨r2, hr2, m, by rw [hm], e2, he2, hfe2⟩
  · intro err
    rfl

/-- Claim C5 witness: with one rule whose single entry fails, the run
aborts with the `NOW_BUILDER_FAILURE` error naming that rule, and an
idle server holding one published artifact keeps it across the failed
build. -/
theorem build_failure_atomic_witness :
    (∃ r2 ∈ [badRule], ∃ m,
      buildLambdasRun (fun _ => ["a.js"]) (fun _ _ => Except.error "boom") [badRule]
          = Except.error (builderFailure r2 m)
      ∧ ∃ e2 ∈ (fun (_ : BuildConfig) => ["a.js"]) r2,
          (fun (_ : BuildConfig) (_ : String) => (Except.error "boom" : Except String ArtifactMap)) r2 e2
            = Except.error m)
    ∧ (∀ err : NowBuildError, applyBuildResult idleState (Except.error err) = idleState) :=
  build_failure_atomic (fun _ => ["a.js"]) (fun _ _ => Except.error "boom")
    [badRule] badRule (by simp) "a.js" (by simp) "boom" rfl idleState

theorem b64_index_char : ∀ n, n < 64 → b64Index (b64Char n) = n := by
  decide

theorem b64Char_ne_pad : ∀ n, n < 64 → b64Char n ≠ '=' := by
  decide

theorem filter_pad_cons (n : Nat) (hn : n < 64) (l : List Char) :
    List.filter (fun c => c ≠ '=') (b64Char n :: l)
      = b64Char n :: List.filter (fun c => c ≠ '=') l := by
  rw [List.filter_cons_of_pos]
  simp [b64Char_ne_pad n hn]

theorem filter_pad_drop (l : List Char) :
    List.filter (fun c => c ≠ '=') ('=' :: l) = List.filter (fun c => c ≠ '=') l := by
  simp

theorem sextets_cons (s1 s2 s3 s4 : Nat) (l : List Nat) :
    b64SextetsToBytes (s1 :: s2 :: s3 :: s4 :: l)
      = (s1 * 4 + s2 / 16) :: (s2 % 16 * 16 + s3 / 4) :: (s3 % 4 * 64 + s4)
          :: b64SextetsToBytes l := rfl

theorem b64_roundtrip : ∀ bs : List Nat, (∀ b ∈ bs, b < 256) →
    b64DecodeList (b64EncodeList bs) = bs
  | [], _ => rfl
  | [b1], h => by
    have h1 : b1 < 256 := h b1 (by simp)
    have e1 : b1 / 4 < 64 := by omega
    have e2 : b1 % 4 * 16 < 64 := by omega
    show b64DecodeList [b64Char (b1 / 4), b64Char (b1 % 4 * 16), '=', '='] = [b1]
    unfold b64DecodeList
    rw [filter_pad_cons _ e1, filter_pad_cons _ e2, filter_pad_drop, filter_pad_drop,
      List.filter_nil, List.map_cons, List.map_cons, List.map_nil,
      b64_index_char _ e1, b64_index_char _ e2]
    show [b1 / 4 * 4 + b1 % 4 * 16 / 16] = [b1]
    simp only [List.cons.injEq, and_true]
    omega
  | [b1, b2], h => by
    have h1 : b1 < 256 := h b1 (by simp)
    have h2 : b2 < 256 := h b2 (by simp)
    have e1 : b1 / 4 < 64 := by omega
    have e2 : b1 % 4 * 16 + b2 / 16 < 64 := by omega
    have e3 : b2 % 16 * 4 < 64 := by omega
    show b64DecodeList [b64Char (b1 / 4), b64Char (b1 % 4 * 16 + b2 / 16),
      b64Char (b2 % 16 * 4), '='] = [b1, b2]
    unfold b64DecodeList
    rw [filter_pad_cons _ e1, filter_pad_cons _ e2, filter_pad_cons _ e3, filter_pad_drop,
      List.filter_nil, List.map_cons, List.map_cons, List.map_cons, List.map_nil,
      b64_index_char _ e1, b64_index_char _ e2, b64_index_char _ e3]
    show [b1 / 4 * 4 + (b1 % 4 * 16 + b2 / 16) / 16,
      (b1 % 4 * 16 + b2 / 16) % 16 * 16 + b2 % 16 * 4 / 4] = [b1, b2]
    simp only [List.cons.injEq, and_true]
    constructor <;> omega
  | b1 :: b2 :: b3 :: rest, h => by
    have h1 : b1 < 256 := h b1 (by simp)
    have h2 : b2 < 256 := h b2 (by simp)
    have h3 : b3 < 256 := h b3 (by simp)
    have ih := b64_roundtrip rest (fun b hb => h b (by simp [hb]))
    have e1 : b1 / 4 < 64 := by omega
    have e2 : b1 % 4 * 16 + b2 / 16 < 64 := by omega
    have e3 : b2 % 16 * 4 + b3 / 64 < 64 := by omega
    have e4 : b3 % 64 < 64 := by omega
    show b64DecodeList (b64Char (b1 / 4) :: b64Char (b1 % 4 * 16 + b2 / 16)
      :: b64Char (b2 % 16 * 4 + b3 / 64) :: b64Char (b3 % 64) :: b64EncodeList rest)
      = b1 :: b2 :: b3 :: rest
    unfold b64DecodeList at ih ⊢
    rw [filter_pad_cons _ e1, filter_pad_cons _ e2, filter_pad_cons _ e3, filter_pad_cons _ e4,
      List.map_cons, List.map_cons, List.map_cons, List.map_cons,
      b64_index_char _ e1, b64_index_char _ e2, b64_index_char _ e3, b64_index_char _ e4,
      sextets_cons, ih]
    simp only [List.cons.injEq, and_true]
    refine ⟨by omega, by omega, by omega⟩

/-- Claim C6: the invocation adapter tags every payload with
`encoding: "base64"` and base64-encodes the request body whatever the
headers say; a result declaring `base64` encoding has its body
base64-decoded on the response path, so encode followed by decode is
the identity on the body bytes; concretely, the base64 text
`eyJlaXlvIjp0cnVlfQ==` decodes to the bytes of the literal
`\x7b"eiyo":true\x7d`. -/
theorem invocation_roundtrip (method path : String) (headers : List (String × String))
    (bodyBytes : List Nat) (h : ∀ b ∈ bodyBytes, b < 256) :
    (mkInvokePayload method path headers bodyBytes).encoding = "base64"
    ∧ b64DecodeList (b64EncodeList bodyBytes) = bodyBytes
    ∧ resultResponseBytes
        ⟨200, [], some "base64", some (String.mk (b64EncodeList bodyBytes))⟩ = some bodyBytes
    ∧ b64DecodeList ("eyJlaXlvIjp0cnVlfQ==".data)
        = "\x7b\"eiyo\":true\x7d".data.map Char.toNat := by
  have hrt := b64_roundtrip bodyBytes h
  refine ⟨rfl, hrt, ?_, by decide⟩
  simp [resultResponseBytes, hrt]

/-- Claim C6 witness: the bytes of the literal `\x7b"eiyo":true\x7d`
encode to a payload tagged `base64` and decode back to themselves. -/
theorem invocation_roundtrip_witness :
    (mkInvokePayload "GET" "/api" [("content-type", "application/json")]
        ("\x7b\"eiyo\":true\x7d".data.map Char.toNat)).encoding = "base64"
    ∧ b64DecodeList (b64EncodeList ("\x7b\"eiyo\":true\x7d".data.map Char.toNat))
        = "\x7b\"eiyo\":true\x7d".data.map Char.toNat :=
  ⟨(invocation_roundtrip "GET" "/api" [("content-type", "application/json")]
      ("\x7b\"eiyo\":true\x7d".data.map Char.toNat) (by decide)).1,
    (invocation_roundtrip "GET" "/api" [("content-type", "application/json")]
      ("\x7b\"eiyo\":true\x7d".data.map Char.toNat) (by decide)).2.1⟩

end NowDev
